import Mathlib

/-!
Verification development for the `epson` crate: a command-encoding layer
for ESC/POS-style thermal printers.  The Rust sources are shallowly
embedded: machine integers (`u8`, `u16`, `u32`) become `Nat` (dimension
checks against the `u16` range are explicit, mirroring `try_into`),
`Result<T, Error>` becomes `Except Error T`, and the byte-sink transport
of the writers is modelled as the list of bytes sent so far.
-/

namespace Epson

/-- Error enum from `src/lib.rs`. -/
inductive Error where
  | imageNot8BitAligned
  | imageTooLarge
  | unsupported
  | invalidBarcodeLength
  | invalidBarcodeCharacters
deriving DecidableEq, Repr

/-- A grayscale raster, mirroring `image::ImageBuffer<Luma<u8>, Vec<u8>>`
(`image::GrayImage`): dimensions plus the 8-bit sample at each coordinate.
The sample store is a total function; only in-bounds samples are ever read
(through `getPixelChecked`), matching `get_pixel_checked`. -/
structure GrayImage where
  width : Nat
  height : Nat
  data : Nat → Nat → Nat

/-- `img.get_pixel_checked(x, y)`: `Some` sample iff the coordinate is in
bounds. -/
def getPixelChecked (img : GrayImage) (x y : Nat) : Option Nat :=
  if x < img.width ∧ y < img.height then some (img.data x y) else none

/-- Width padding from `epson_image.rs::try_from`:
`if width % 8 != 0 { width += 8 - (width % 8) }`. -/
def paddedWidth (w : Nat) : Nat :=
  if w % 8 ≠ 0 then w + (8 - w % 8) else w

/-- The per-pixel test of `epson_image.rs`:
`if let Some(pixel) = img.get_pixel_checked(x + bit, y) && pixel.0[0] <= 128`. -/
def darkAt (img : GrayImage) (x y : Nat) : Bool :=
  match getPixelChecked img x y with
  | some p => decide (p ≤ 128)
  | none => false

/-- One output byte of the packer: the inner `for bit in 0..8` loop,
starting from `block = 0` and or-ing in `1 << (7 - bit)` for each dark
pixel of the 8-pixel group starting at `xBase`. -/
def packByte (img : GrayImage) (y xBase : Nat) : Nat :=
  (List.range 8).foldl
    (fun block bit =>
      if darkAt img (xBase + bit) y then block ||| (1 <<< (7 - bit)) else block)
    0

/-- One padded row of packed bytes: `for x in (0..width).step_by(8)` over the
padded width visits `x = 8*i` for `i < paddedWidth/8` (8 divides the padded
width). -/
def packRow (img : GrayImage) (y : Nat) : List Nat :=
  (List.range (paddedWidth img.width / 8)).map (fun i => packByte img y (8 * i))

/-- The full `pixels` vector: the outer `for y in 0..height` loop, row-major. -/
def packPixels (img : GrayImage) : List Nat :=
  (List.range img.height).flatMap (packRow img)

/-- The packed monochrome buffer from `src/epson_image.rs`. `width` is in
bytes, `height` in pixel rows; both were converted to `u16` by `try_into`,
so they are at most 65535 whenever construction succeeded. -/
structure ImageBuffer where
  width : Nat
  height : Nat
  pixels : List Nat
deriving DecidableEq, Repr

/-- `TryFrom<image::ImageBuffer<Luma<u8>, Vec<u8>>> for ImageBuffer` from
`src/epson_image.rs`: pad the width, pack every row, then convert
`width/8` and `height` to `u16`, failing with `ImageTooLarge` when either
exceeds 65535. -/
def ImageBuffer.tryFrom (img : GrayImage) : Except Error ImageBuffer :=
  let pixels := packPixels img
  let wb := paddedWidth img.width / 8
  if wb > 65535 then .error .imageTooLarge
  else if img.height > 65535 then .error .imageTooLarge
  else .ok { width := wb, height := img.height, pixels := pixels }

/-- Alignment enum from `src/commands.rs`, in source declaration order
(`Left`, `Right`, `Center`). -/
inductive Alignment where
  | left
  | right
  | center
deriving DecidableEq, Repr

/-- The `repr(u8)` discriminants of `Alignment`: `Left = 0`, `Right = 2`,
`Center = 1`; `*alignment as u8` reads these. -/
def Alignment.wireCode : Alignment → Nat
  | .left => 0
  | .right => 2
  | .center => 1

/-- Character sets, with the two variants matched in `src/models.rs`
(`CharacterSet::Raw`, `CharacterSet::Unicode`). The defining enum lives in
the revision of `commands.rs` that `write.rs` and `lib.rs` were written
against. -/
inductive CharacterSet where
  | raw
  | unicode
deriving DecidableEq, Repr

/-- Modelled from the spec: the wire encoding of the `CharacterSet`
command.  The spec's command table (§4.3) has no row for it and the
`commands.rs` under `src/` predates the variant that `write.rs` sends, so
the bytes are implementation-defined; every claim about character sets
depends only on this being some fixed per-set byte sequence, taken here as
ESC 't' followed by a per-set code. -/
def characterSetBytes : CharacterSet → List Nat
  | .raw => [0x1b, 0x74, 0x00]
  | .unicode => [0x1b, 0x74, 0x01]

/-- Command enum from `src/commands.rs`, plus the `CharacterSet` variant
that `src/write.rs` and `src/async_tokio.rs` dispatch (its declaration
postdates the `commands.rs` snapshot).  `Speed` and `Feed` carry `u8` in
the source; they carry `Nat` here and the encoding theorems range over
0..255. -/
inductive Command where
  | init
  | underline (state : Bool)
  | emphasize (state : Bool)
  | doubleStrike (state : Bool)
  | reverse (state : Bool)
  | justification (alignment : Alignment)
  | speed (speed : Nat)
  | cut
  | feed (count : Nat)
  | image (img : GrayImage)
  | characterSet (c : CharacterSet)

/-- `Command::as_bytes` from `src/commands.rs`.  The `Image` arm runs the
packer (`try_into` on the raster, `?`-propagating its error) and emits
`GS 'v' '0' 0x00` followed by the little-endian `u16` width and height
(`to_le_bytes` is `[v % 256, v / 256]`) and the packed bytes. -/
def Command.asBytes : Command → Except Error (List Nat)
  | .init => .ok [0x1b, 0x40]
  | .cut => .ok [0x1b, 0x69]
  | .underline s => .ok [0x1b, 0x2d, if s then 1 else 0]
  | .emphasize s => .ok [0x1b, 0x45, if s then 0xFF else 0]
  | .doubleStrike s => .ok [0x1b, 0x47, if s then 0xFF else 0]
  | .reverse s => .ok [0x1b, 0x42, if s then 0xFF else 0]
  | .justification a => .ok [0x1b, 0x61, a.wireCode]
  | .feed n => .ok [0x1b, 0x64, n]
  | .speed n => .ok [0x1d, 0x28, 0x4b, 0x02, 0x00, 0x32, n % 9]
  | .characterSet c => .ok (characterSetBytes c)
  | .image img =>
    match ImageBuffer.tryFrom img with
    | .error e => .error e
    | .ok buf =>
      .ok ([0x1d, 0x76, 0x30, 0x00, buf.width % 256, buf.width / 256,
            buf.height % 256, buf.height / 256] ++ buf.pixels)

/-- `u8::is_ascii_digit`: the byte is in `b'0'..=b'9'`. -/
def isAsciiDigit (b : Nat) : Bool :=
  0x30 ≤ b && b ≤ 0x39

/-- Barcode enum from `src/barcode.rs` (one symbology, UPC-A, holding the
raw digit bytes). -/
inductive Barcode where
  | upca (data : List Nat)
deriving DecidableEq, Repr

/-- `Barcode::new_upca` from `src/barcode.rs`: length must be 11 or 12,
every byte must be an ASCII digit, and the data is stored as given. -/
def Barcode.newUpca (data : List Nat) : Except Error Barcode :=
  if data.length ≠ 11 ∧ data.length ≠ 12 then .error .invalidBarcodeLength
  else if !(data.all isAsciiDigit) then .error .invalidBarcodeCharacters
  else .ok (.upca data)

/-- Modelled from the spec: the UPC-A check digit over 11 ASCII digit
bytes.  The barcode encoder that consumes a constructed `Barcode` is in
the revision of `commands.rs` not present under `src/`; the spec (§8) says
an 11-digit payload gets a computed check digit, which for UPC-A is
`(10 - (3*(sum of odd positions) + sum of even positions) mod 10) mod 10`. -/
def upcaCheckDigit (data : List Nat) : Nat :=
  (10 - upcaWeightedSum (data.map (fun b => b - 0x30)) % 10) % 10
where
  /-- 3 × odd-position digits (1st, 3rd, …) plus even-position digits. -/
  upcaWeightedSum : List Nat → Nat
    | [] => 0
    | [d] => 3 * d
    | d :: e :: rest => 3 * d + e + upcaWeightedSum rest

/-- Modelled from the spec: the full 12-digit payload the downstream
barcode encoding works from — an 11-digit construction gets the computed
check digit appended (as an ASCII byte); a 12-digit construction already
carries its check digit as the given last digit. -/
def upcaFullDigits (data : List Nat) : List Nat :=
  if data.length = 11 then data ++ [0x30 + upcaCheckDigit data] else data

/-- Printer models from `src/models.rs`. -/
inductive Model where
  | generic
  | t20ii
  | t30ii
deriving DecidableEq, Repr

/-- `Model::get_max_image_width` from `src/models.rs`. -/
def Model.getMaxImageWidth : Model → Nat
  | .generic => 512
  | .t20ii => 576
  | .t30ii => 576

/-- `Model::supports_character_set` from `src/models.rs`. -/
def Model.supportsCharacterSet (m : Model) (c : CharacterSet) : Bool :=
  match c with
  | .raw => true
  | .unicode =>
    match m with
    | .t20ii => false
    | .t30ii => true
    | .generic => false

/-- `Model::get_columns` from `src/models.rs`. -/
def Model.getColumns : Model → Nat
  | .generic => 48
  | .t20ii => 48
  | .t30ii => 48

/-- `Model::check_image` from `src/models.rs`: reject a raster wider (in
pixels) than the model's maximum. -/
def Model.checkImage (m : Model) (img : GrayImage) : Except Error Unit :=
  if img.width > m.getMaxImageWidth then .error .imageTooLarge else .ok ()

/-- The `Writer` struct (declared in the crate root and shared by both
calling conventions): the selected model and the owned transport, the
latter modelled as the ordered list of bytes written to it so far. -/
structure Writer where
  model : Model
  sent : List Nat

/-- `write::Error` from `src/write.rs`: a protocol error or an underlying
`std::io` error.  The transport is modelled as an infallible byte sink, so
the `io` variant is never produced here. -/
inductive StdError where
  | epson (e : Error)
  | io
deriving DecidableEq, Repr

namespace StdWrite

/-- `StdWriterExt::write_command` from `src/write.rs`: encode with
`Command::as_bytes` (`?` wraps its error as `Error::Epson`) and hand the
bytes to the transport in one `write_all`. -/
def writeCommand (w : Writer) (cmd : Command) : Except StdError Writer :=
  match cmd.asBytes with
  | .error e => .error (.epson e)
  | .ok bs => .ok { w with sent := w.sent ++ bs }

/-- `StdWriterExt::init`. -/
def init (w : Writer) : Except StdError Writer :=
  writeCommand w .init

/-- `StdWriterExt::open` from `src/write.rs`: build the writer around the
fresh transport, then `init()?` before returning it. -/
def openWriter (m : Model) : Except StdError Writer :=
  init { model := m, sent := [] }

/-- `StdWriterExt::character_set`: gate on
`Model::supports_character_set`, failing with `Unsupported` before any
write. -/
def characterSet (w : Writer) (c : CharacterSet) : Except StdError Writer :=
  if !(w.model.supportsCharacterSet c) then .error (.epson .unsupported)
  else writeCommand w (.characterSet c)

/-- `StdWriterExt::set_unicode`. -/
def setUnicode (w : Writer) : Except StdError Writer :=
  characterSet w .unicode

/-- `StdWriterExt::cut`. -/
def cut (w : Writer) : Except StdError Writer :=
  writeCommand w .cut

/-- `StdWriterExt::underline`. -/
def underline (w : Writer) (s : Bool) : Except StdError Writer :=
  writeCommand w (.underline s)

/-- `StdWriterExt::emphasize`. -/
def emphasize (w : Writer) (s : Bool) : Except StdError Writer :=
  writeCommand w (.emphasize s)

/-- `StdWriterExt::reverse`. -/
def reverse (w : Writer) (s : Bool) : Except StdError Writer :=
  writeCommand w (.reverse s)

/-- `StdWriterExt::double_strike`. -/
def doubleStrike (w : Writer) (s : Bool) : Except StdError Writer :=
  writeCommand w (.doubleStrike s)

/-- `StdWriterExt::justify`. -/
def justify (w : Writer) (a : Alignment) : Except StdError Writer :=
  writeCommand w (.justification a)

/-- `StdWriterExt::feed`. -/
def feed (w : Writer) (n : Nat) : Except StdError Writer :=
  writeCommand w (.feed n)

/-- `StdWriterExt::speed`. -/
def speed (w : Writer) (n : Nat) : Except StdError Writer :=
  writeCommand w (.speed n)

/-- `StdWriterExt::print_image`: validate against the model with
`check_image` (`?` wraps the error), then take the unchecked path. -/
def printImage (w : Writer) (img : GrayImage) : Except StdError Writer :=
  match w.model.checkImage img with
  | .error e => .error (.epson e)
  | .ok _ => writeCommand w (.image img)

/-- `StdWriterExt::print_image_unchecked`: no model check at all. -/
def printImageUnchecked (w : Writer) (img : GrayImage) : Except StdError Writer :=
  writeCommand w (.image img)

end StdWrite

/-- `async_tokio::Error` from `src/async_tokio.rs`: a protocol error or an
underlying `tokio::io` error; the latter is never produced by the
infallible-sink transport model. -/
inductive TokioError where
  | epson (e : Error)
  | tokio
deriving DecidableEq, Repr

namespace AsyncTokio

/-- `AsyncWriterExt::write_command` from `src/async_tokio.rs`:
`self.w.write_all(&cmd.as_bytes()?).await`. -/
def writeCommand (w : Writer) (cmd : Command) : Except TokioError Writer :=
  match cmd.asBytes with
  | .error e => .error (.epson e)
  | .ok bs => .ok { w with sent := w.sent ++ bs }

/-- `AsyncWriterExt::init`. -/
def init (w : Writer) : Except TokioError Writer :=
  writeCommand w .init

/-- `AsyncWriterExt::open` from `src/async_tokio.rs`. -/
def openWriter (m : Model) : Except TokioError Writer :=
  init { model := m, sent := [] }

/-- `AsyncWriterExt::character_set`. -/
def characterSet (w : Writer) (c : CharacterSet) : Except TokioError Writer :=
  if !(w.model.supportsCharacterSet c) then .error (.epson .unsupported)
  else writeCommand w (.characterSet c)

/-- `AsyncWriterExt::set_unicode`. -/
def setUnicode (w : Writer) : Except TokioError Writer :=
  characterSet w .unicode

/-- `AsyncWriterExt::cut`. -/
def cut (w : Writer) : Except TokioError Writer :=
  writeCommand w .cut

/-- `AsyncWriterExt::underline`. -/
def underline (w : Writer) (s : Bool) : Except TokioError Writer :=
  writeCommand w (.underline s)

/-- `AsyncWriterExt::emphasize`. -/
def emphasize (w : Writer) (s : Bool) : Except TokioError Writer :=
  writeCommand w (.emphasize s)

/-- `AsyncWriterExt::reverse`. -/
def reverse (w : Writer) (s : Bool) : Except TokioError Writer :=
  writeCommand w (.reverse s)

/-- `AsyncWriterExt::double_strike`. -/
def doubleStrike (w : Writer) (s : Bool) : Except TokioError Writer :=
  writeCommand w (.doubleStrike s)

/-- `AsyncWriterExt::justify`. -/
def justify (w : Writer) (a : Alignment) : Except TokioError Writer :=
  writeCommand w (.justification a)

/-- `AsyncWriterExt::feed`. -/
def feed (w : Writer) (n : Nat) : Except TokioError Writer :=
  writeCommand w (.feed n)

/-- `AsyncWriterExt::speed`. -/
def speed (w : Writer) (n : Nat) : Except TokioError Writer :=
  writeCommand w (.speed n)

/-- `AsyncWriterExt::print_image`. -/
def printImage (w : Writer) (img : GrayImage) : Except TokioError Writer :=
  match w.model.checkImage img with
  | .error e => .error (.epson e)
  | .ok _ => writeCommand w (.image img)

/-- `AsyncWriterExt::print_image_unchecked`. -/
def printImageUnchecked (w : Writer) (img : GrayImage) : Except TokioError Writer :=
  writeCommand w (.image img)

end AsyncTokio

/-- One caller-issued operation on an open writer, covering the trait
methods whose command encodings are available (the barcode and HRI
operations dispatch command variants whose encoder is not in the
`commands.rs` snapshot). -/
inductive Op where
  | init
  | cut
  | setUnicode
  | characterSet (c : CharacterSet)
  | underline (s : Bool)
  | emphasize (s : Bool)
  | reverse (s : Bool)
  | doubleStrike (s : Bool)
  | justify (a : Alignment)
  | feed (n : Nat)
  | speed (n : Nat)
  | printImage (img : GrayImage)
  | printImageUnchecked (img : GrayImage)
  | writeCommand (cmd : Command)

/-- Dispatch one operation through the blocking (std) trait impl. -/
def StdWrite.step (w : Writer) : Op → Except StdError Writer
  | .init => StdWrite.init w
  | .cut => StdWrite.cut w
  | .setUnicode => StdWrite.setUnicode w
  | .characterSet c => StdWrite.characterSet w c
  | .underline s => StdWrite.underline w s
  | .emphasize s => StdWrite.emphasize w s
  | .reverse s => StdWrite.reverse w s
  | .doubleStrike s => StdWrite.doubleStrike w s
  | .justify a => StdWrite.justify w a
  | .feed n => StdWrite.feed w n
  | .speed n => StdWrite.speed w n
  | .printImage img => StdWrite.printImage w img
  | .printImageUnchecked img => StdWrite.printImageUnchecked w img
  | .writeCommand cmd => StdWrite.writeCommand w cmd

/-- After a failed operation the caller still holds the unchanged writer;
`exec` is the state actually carried forward. -/
def StdWrite.exec (w : Writer) (op : Op) : Writer :=
  match StdWrite.step w op with
  | .ok w' => w'
  | .error _ => w

/-- Run a sequence of caller-issued operations through the std impl. -/
def StdWrite.run (w : Writer) : List Op → Writer
  | [] => w
  | op :: ops => StdWrite.run (StdWrite.exec w op) ops

/-- Dispatch one operation through the tokio trait impl. -/
def AsyncTokio.step (w : Writer) : Op → Except TokioError Writer
  | .init => AsyncTokio.init w
  | .cut => AsyncTokio.cut w
  | .setUnicode => AsyncTokio.setUnicode w
  | .characterSet c => AsyncTokio.characterSet w c
  | .underline s => AsyncTokio.underline w s
  | .emphasize s => AsyncTokio.emphasize w s
  | .reverse s => AsyncTokio.reverse w s
  | .doubleStrike s => AsyncTokio.doubleStrike w s
  | .justify a => AsyncTokio.justify w a
  | .feed n => AsyncTokio.feed w n
  | .speed n => AsyncTokio.speed w n
  | .printImage img => AsyncTokio.printImage w img
  | .printImageUnchecked img => AsyncTokio.printImageUnchecked w img
  | .writeCommand cmd => AsyncTokio.writeCommand w cmd

/-- State carried forward after one tokio-impl operation. -/
def AsyncTokio.exec (w : Writer) (op : Op) : Writer :=
  match AsyncTokio.step w op with
  | .ok w' => w'
  | .error _ => w

/-- Run a sequence of caller-issued operations through the tokio impl. -/
def AsyncTokio.run (w : Writer) : List Op → Writer
  | [] => w
  | op :: ops => AsyncTokio.run (AsyncTokio.exec w op) ops

/-! ### Packing lemmas -/

theorem paddedWidth_div_eight (w : Nat) : paddedWidth w / 8 = (w + 7) / 8 := by
  unfold paddedWidth
  split <;> omega

theorem packRow_length (img : GrayImage) (y : Nat) :
    (packRow img y).length = paddedWidth img.width / 8 := by
  simp [packRow]

theorem flatten_length_const {L : List (List Nat)} {k : Nat}
    (h : ∀ l ∈ L, l.length = k) : L.flatten.length = L.length * k := by
  induction L with
  | nil => simp
  | cons a L ih =>
    simp only [List.flatten_cons, List.length_append, List.length_cons]
    rw [h a (by simp), ih (fun l hl => h l (by simp [hl]))]
    ring

theorem packPixels_length (img : GrayImage) :
    (packPixels img).length = img.height * (paddedWidth img.width / 8) := by
  unfold packPixels
  rw [List.flatMap_def,
    flatten_length_const (k := paddedWidth img.width / 8)]
  · simp
  · intro l hl
    rcases List.mem_map.mp hl with ⟨y, _, rfl⟩
    exact packRow_length img y

theorem flatten_getD_const {L : List (List Nat)} {k : Nat}
    (hk : ∀ l ∈ L, l.length = k) {y i : Nat} (hy : y < L.length) (hi : i < k) :
    L.flatten.getD (y * k + i) 0 = (L.getD y []).getD i 0 := by
  induction L generalizing y with
  | nil => simp at hy
  | cons a L ih =>
    cases y with
    | zero =>
      have ha : a.length = k := hk a (by simp)
      simp only [List.flatten_cons, Nat.zero_mul, Nat.zero_add, List.getD_cons_zero]
      exact List.getD_append _ _ _ _ (by omega)
    | succ y =>
      have ha : a.length = k := hk a (by simp)
      have hy' : y < L.length := by simpa using hy
      simp only [List.flatten_cons, List.getD_cons_succ]
      rw [show (y + 1) * k + i = a.length + (y * k + i) by rw [ha]; ring,
        List.getD_append_right _ _ _ _ (by omega)]
      rw [Nat.add_sub_cancel_left]
      exact ih (fun l hl => hk l (by simp [hl])) hy'

theorem packPixels_getD (img : GrayImage) {y i : Nat}
    (hy : y < img.height) (hi : i < paddedWidth img.width / 8) :
    (packPixels img).getD (y * (paddedWidth img.width / 8) + i) 0
      = packByte img y (8 * i) := by
  unfold packPixels
  rw [List.flatMap_def,
    flatten_getD_const (k := paddedWidth img.width / 8) ?_ (by simpa using hy) hi]
  · have h1 : ((List.range img.height).map (packRow img)).getD y [] = packRow img y := by
      rw [List.getD_eq_getElem _ _ (by simpa using hy)]
      simp
    rw [h1, List.getD_eq_getElem _ _ (by rw [packRow_length]; exact hi)]
    simp [packRow]
  · intro l hl
    rcases List.mem_map.mp hl with ⟨y', _, rfl⟩
    exact packRow_length img y'

theorem foldl_orShift_testBit (l : List Nat) (d : Nat → Bool) (b p : Nat) :
    ((l.foldl (fun block bit =>
        if d bit then block ||| 1 <<< (7 - bit) else block) b).testBit p)
      = (b.testBit p || l.any (fun bit => d bit && decide (7 - bit = p))) := by
  induction l generalizing b with
  | nil => simp
  | cons a l ih =>
    simp only [List.foldl_cons, List.any_cons, ih]
    cases h : d a <;>
      simp [h, Nat.testBit_lor, Nat.one_shiftLeft, Nat.testBit_two_pow,
        Bool.or_assoc]

theorem packByte_testBit (img : GrayImage) (y xBase : Nat) {bit : Nat}
    (hbit : bit < 8) :
    (packByte img y xBase).testBit (7 - bit) = darkAt img (xBase + bit) y := by
  have expand : (List.range 8) = [0, 1, 2, 3, 4, 5, 6, 7] := by decide
  unfold packByte
  rw [expand, foldl_orShift_testBit]
  interval_cases bit <;> simp

theorem darkAt_eq (img : GrayImage) {x y : Nat} (hy : y < img.height) :
    darkAt img x y = (decide (x < img.width) && decide (img.data x y ≤ 128)) := by
  unfold darkAt getPixelChecked
  by_cases hx : x < img.width
  · simp [hx, hy]
  · simp [hx]

theorem darkAt_ext {img imgB : GrayImage} (hw : img.width = imgB.width)
    (hh : img.height = imgB.height)
    (hd : ∀ x y, x < img.width → y < img.height → img.data x y = imgB.data x y) :
    ∀ x y, darkAt img x y = darkAt imgB x y := by
  intro x y
  unfold darkAt getPixelChecked
  rw [← hw, ← hh]
  by_cases hx : x < img.width ∧ y < img.height
  · rw [if_pos hx, if_pos hx, hd x y hx.1 hx.2]
  · rw [if_neg hx, if_neg hx]

theorem packByte_ext {img imgB : GrayImage}
    (hdark : ∀ x y, darkAt img x y = darkAt imgB x y) (y xb : Nat) :
    packByte img y xb = packByte imgB y xb := by
  unfold packByte
  have he : (fun (block bit : Nat) =>
        if darkAt img (xb + bit) y then block ||| 1 <<< (7 - bit) else block)
      = (fun (block bit : Nat) =>
        if darkAt imgB (xb + bit) y then block ||| 1 <<< (7 - bit) else block) := by
    funext block bit
    rw [hdark]
  rw [he]

theorem packPixels_ext {img imgB : GrayImage} (hw : img.width = imgB.width)
    (hh : img.height = imgB.height)
    (hd : ∀ x y, x < img.width → y < img.height → img.data x y = imgB.data x y) :
    packPixels img = packPixels imgB := by
  unfold packPixels packRow
  rw [hh, hw]
  congr 1
  funext y
  congr 1
  funext i
  exact packByte_ext (darkAt_ext hw hh hd) y (8 * i)

/-! ### Writer lemmas -/

theorem writeCommand_ok_sent {w : Writer} {cmd : Command} {w' : Writer}
    (h : StdWrite.writeCommand w cmd = .ok w') : ∃ r, w'.sent = w.sent ++ r := by
  unfold StdWrite.writeCommand at h
  cases hb : cmd.asBytes with
  | error e => rw [hb] at h; cases h
  | ok bs => rw [hb] at h; cases h; exact ⟨bs, rfl⟩

theorem StdWrite.step_sent {w : Writer} {op : Op} {w' : Writer}
    (h : StdWrite.step w op = .ok w') : ∃ r, w'.sent = w.sent ++ r := by
  cases op <;>
    simp only [StdWrite.step, StdWrite.init, StdWrite.cut, StdWrite.setUnicode,
      StdWrite.characterSet, StdWrite.underline, StdWrite.emphasize,
      StdWrite.reverse, StdWrite.doubleStrike, StdWrite.justify, StdWrite.feed,
      StdWrite.speed, StdWrite.printImage, StdWrite.printImageUnchecked] at h <;>
    first
      | exact writeCommand_ok_sent h
      | (split at h <;>
          first
            | exact writeCommand_ok_sent h
            | cases h)

theorem StdWrite.exec_sent (w : Writer) (op : Op) :
    ∃ r, (StdWrite.exec w op).sent = w.sent ++ r := by
  unfold StdWrite.exec
  cases hs : StdWrite.step w op with
  | error e => exact ⟨[], by simp⟩
  | ok w' => exact StdWrite.step_sent hs

theorem StdWrite.run_sent (ops : List Op) :
    ∀ w : Writer, ∃ r, (StdWrite.run w ops).sent = w.sent ++ r := by
  induction ops with
  | nil => exact fun w => ⟨[], by simp [StdWrite.run]⟩
  | cons op ops ih =>
    intro w
    obtain ⟨r1, h1⟩ := StdWrite.exec_sent w op
    obtain ⟨r2, h2⟩ := ih (StdWrite.exec w op)
    exact ⟨r1 ++ r2, by simp [StdWrite.run, h2, h1]⟩

/-- Both trait impls carry the same state forward for one raw command:
they dispatch through the same `Command::as_bytes`. -/
theorem execCmd_eq (w : Writer) (cmd : Command) :
    (match StdWrite.writeCommand w cmd with
      | .ok w' => w'
      | .error _ => w)
      = (match AsyncTokio.writeCommand w cmd with
        | .ok w' => w'
        | .error _ => w) := by
  simp only [StdWrite.writeCommand, AsyncTokio.writeCommand]
  cases cmd.asBytes <;> rfl

theorem exec_std_eq_tok (w : Writer) (op : Op) :
    StdWrite.exec w op = AsyncTokio.exec w op := by
  cases op with
  | init => exact execCmd_eq w .init
  | cut => exact execCmd_eq w .cut
  | setUnicode =>
    simp only [StdWrite.exec, AsyncTokio.exec, StdWrite.step, AsyncTokio.step,
      StdWrite.setUnicode, AsyncTokio.setUnicode, StdWrite.characterSet,
      AsyncTokio.characterSet]
    cases hs : w.model.supportsCharacterSet .unicode
    · rfl
    · simpa [hs] using execCmd_eq w (.characterSet .unicode)
  | characterSet c =>
    simp only [StdWrite.exec, AsyncTokio.exec, StdWrite.step, AsyncTokio.step,
      StdWrite.characterSet, AsyncTokio.characterSet]
    cases hs : w.model.supportsCharacterSet c
    · rfl
    · simpa [hs] using execCmd_eq w (.characterSet c)
  | underline s => exact execCmd_eq w (.underline s)
  | emphasize s => exact execCmd_eq w (.emphasize s)
  | reverse s => exact execCmd_eq w (.reverse s)
  | doubleStrike s => exact execCmd_eq w (.doubleStrike s)
  | justify a => exact execCmd_eq w (.justification a)
  | feed n => exact execCmd_eq w (.feed n)
  | speed n => exact execCmd_eq w (.speed n)
  | printImage img =>
    simp only [StdWrite.exec, AsyncTokio.exec, StdWrite.step, AsyncTokio.step,
      StdWrite.printImage, AsyncTokio.printImage, Model.checkImage]
    by_cases hc : img.width > Model.getMaxImageWidth w.model
    · simp [hc]
    · simpa [hc] using execCmd_eq w (.image img)
  | printImageUnchecked img => exact execCmd_eq w (.image img)
  | writeCommand cmd => exact execCmd_eq w cmd

theorem run_std_eq_tok (ops : List Op) :
    ∀ w : Writer, StdWrite.run w ops = AsyncTokio.run w ops := by
  induction ops with
  | nil => intro w; rfl
  | cons op ops ih =>
    intro w
    simp only [StdWrite.run, AsyncTokio.run, exec_std_eq_tok, ih]

deriving instance DecidableEq for Except

/-! ### Claim theorems -/

/-- C1: every `Command` variant encodes to exactly the spec's byte table:
Init = ESC '@', Cut = ESC 'i', Underline(s) = ESC '-' (1/0),
Emphasize/DoubleStrike/Reverse(s) = ESC 'E'/'G'/'B' (0xFF/0), Justification
with wire codes Left=0, Center=1, Right=2, Feed(n) = ESC 'd' n for every
n in 0..255, and Speed(n) = GS '(' 'K' 2 0 0x32 (n mod 9) for every n in
0..255 — in particular Speed(8) encodes 8 and Speed(9) wraps to 0. -/
theorem command_encoding_table :
    (Command.asBytes .init = .ok [0x1b, 0x40]) ∧
    (Command.asBytes .cut = .ok [0x1b, 0x69]) ∧
    (Command.asBytes (.underline true) = .ok [0x1b, 0x2d, 1]) ∧
    (Command.asBytes (.underline false) = .ok [0x1b, 0x2d, 0]) ∧
    (Command.asBytes (.emphasize true) = .ok [0x1b, 0x45, 0xFF]) ∧
    (Command.asBytes (.emphasize false) = .ok [0x1b, 0x45, 0]) ∧
    (Command.asBytes (.doubleStrike true) = .ok [0x1b, 0x47, 0xFF]) ∧
    (Command.asBytes (.doubleStrike false) = .ok [0x1b, 0x47, 0]) ∧
    (Command.asBytes (.reverse true) = .ok [0x1b, 0x42, 0xFF]) ∧
    (Command.asBytes (.reverse false) = .ok [0x1b, 0x42, 0]) ∧
    (Command.asBytes (.justification .left) = .ok [0x1b, 0x61, 0]) ∧
    (Command.asBytes (.justification .center) = .ok [0x1b, 0x61, 1]) ∧
    (Command.asBytes (.justification .right) = .ok [0x1b, 0x61, 2]) ∧
    (∀ n : Fin 256, Command.asBytes (.feed n.val) = .ok [0x1b, 0x64, n.val]) ∧
    (∀ n : Fin 256, Command.asBytes (.speed n.val)
      = .ok [0x1d, 0x28, 0x4b, 0x02, 0x00, 0x32, n.val % 9]) ∧
    (Command.asBytes (.speed 8) = .ok [0x1d, 0x28, 0x4b, 0x02, 0x00, 0x32, 8]) ∧
    (Command.asBytes (.speed 9) = .ok [0x1d, 0x28, 0x4b, 0x02, 0x00, 0x32, 0]) := by
  set_option maxRecDepth 100000 in decide

/-- C5: the capability table is total over the closed `Model` set:
max image width 512 for Generic, 576 for the named models; `Raw` is
supported everywhere while `Unicode` is supported by exactly one named
model (T30II) and rejected by T20II and Generic; 48 columns for every
model. -/
theorem model_capability_table :
    (Model.generic.getMaxImageWidth = 512) ∧
    (Model.t20ii.getMaxImageWidth = 576) ∧
    (Model.t30ii.getMaxImageWidth = 576) ∧
    (∀ m : Model, m.supportsCharacterSet .raw = true) ∧
    (Model.t30ii.supportsCharacterSet .unicode = true) ∧
    (Model.t20ii.supportsCharacterSet .unicode = false) ∧
    (Model.generic.supportsCharacterSet .unicode = false) ∧
    (∀ m : Model, m.getColumns = 48) := by
  refine ⟨rfl, rfl, rfl, ?_, rfl, rfl, rfl, ?_⟩ <;> intro m <;> cases m <;> rfl

/-- C2: on success, packing reports width-in-bytes = ⌈W/8⌉ (width padded
up to a multiple of 8) and height = H, and packs row-major, 8 horizontal
pixels per byte with the most-significant bit leftmost: bit `7 - bit` of
byte `y * widthBytes + i` is set exactly when pixel `8*i + bit` of row `y`
exists (is left of the original width — padding columns are never set) and
its sample is ≤ 128. -/
theorem image_packing_bits (img : GrayImage) (buf : ImageBuffer)
    (h : ImageBuffer.tryFrom img = .ok buf) :
    buf.width = (img.width + 7) / 8 ∧
    buf.height = img.height ∧
    ∀ y i bit : Nat, y < img.height → i < buf.width → bit < 8 →
      ((buf.pixels.getD (y * buf.width + i) 0).testBit (7 - bit)
        = (decide (8 * i + bit < img.width) &&
           decide (img.data (8 * i + bit) y ≤ 128))) := by
  unfold ImageBuffer.tryFrom at h
  simp only at h
  split at h
  · cases h
  split at h
  · cases h
  cases h
  refine ⟨paddedWidth_div_eight _, rfl, ?_⟩
  intro y i bit hy hi hbit
  simp only at hi ⊢
  rw [packPixels_getD img hy hi, packByte_testBit img y (8 * i) hbit,
    darkAt_eq img hy]

/-- Concrete 3×1 raster used to witness the packing theorem: one dark
pixel on the left, two light ones, five padding columns. -/
def imgSmall : GrayImage :=
  ⟨3, 1, fun x _ => if x = 0 then 0 else 200⟩

/-- Witness for C2 at a concrete raster. -/
theorem image_packing_bits_witness :
    (⟨1, 1, [128]⟩ : ImageBuffer).width = (3 + 7) / 8 ∧
    ((⟨1, 1, [128]⟩ : ImageBuffer).pixels.getD (0 * 1 + 0) 0).testBit (7 - 0)
      = (decide (8 * 0 + 0 < 3) && decide (imgSmall.data (8 * 0 + 0) 0 ≤ 128)) := by
  have h := image_packing_bits imgSmall ⟨1, 1, [128]⟩ (by decide)
  exact ⟨h.1, h.2.2 0 0 0 (by decide) (by decide) (by decide)⟩

/-- C4: a raster whose packed width-in-bytes ⌈W/8⌉ or height exceeds
65535 fails with `ImageTooLarge` and produces no buffer; and packing is a
pure function of the raster's dimensions and in-bounds samples (same
input, same output — no other state is consulted). -/
theorem oversized_image_rejected (img : GrayImage) :
    (((img.width + 7) / 8 > 65535 ∨ img.height > 65535) →
      ImageBuffer.tryFrom img = .error .imageTooLarge) ∧
    (∀ imgB : GrayImage, img.width = imgB.width → img.height = imgB.height →
      (∀ x y, x < img.width → y < img.height → img.data x y = imgB.data x y) →
      ImageBuffer.tryFrom img = ImageBuffer.tryFrom imgB) := by
  constructor
  · intro h
    simp only [ImageBuffer.tryFrom]
    split
    · rfl
    split
    · rfl
    rename_i hw hh
    rw [paddedWidth_div_eight] at hw
    exfalso
    omega
  · intro imgB hw hh hd
    simp only [ImageBuffer.tryFrom]
    rw [hw, hh, packPixels_ext hw hh hd]

/-- Concrete raster whose padded width-in-bytes is 65536, used to witness
the size-limit rejection. -/
def imgHuge : GrayImage :=
  ⟨524288, 1, fun _ _ => 255⟩

/-- Witness for C4 at a concrete oversized raster. -/
theorem oversized_image_rejected_witness :
    ImageBuffer.tryFrom imgHuge = .error .imageTooLarge ∧
    ImageBuffer.tryFrom imgHuge = ImageBuffer.tryFrom imgHuge :=
  ⟨(oversized_image_rejected imgHuge).1 (Or.inl (by decide)),
    (oversized_image_rejected imgHuge).2 imgHuge rfl rfl (fun _ _ _ _ => rfl)⟩

/-- C10: a successfully packed raster has exactly ⌈W/8⌉ × H payload bytes,
and the encoded `Image` command is the 8-byte header
`GS 'v' '0' 0 w_lo w_hi h_lo h_hi` followed by that payload, with the
little-endian 16-bit width/height fields decoding to values whose product
is the payload length. -/
theorem image_command_framing (img : GrayImage) (buf : ImageBuffer)
    (h : ImageBuffer.tryFrom img = .ok buf) :
    buf.pixels.length = buf.width * buf.height ∧
    buf.width = (img.width + 7) / 8 ∧
    buf.height = img.height ∧
    Command.asBytes (.image img)
      = .ok ([0x1d, 0x76, 0x30, 0x00, buf.width % 256, buf.width / 256,
          buf.height % 256, buf.height / 256] ++ buf.pixels) ∧
    (buf.width % 256 + 256 * (buf.width / 256))
        * (buf.height % 256 + 256 * (buf.height / 256))
      = buf.pixels.length := by
  have henc : Command.asBytes (.image img)
      = .ok ([0x1d, 0x76, 0x30, 0x00, buf.width % 256, buf.width / 256,
          buf.height % 256, buf.height / 256] ++ buf.pixels) := by
    simp only [Command.asBytes, h]
  unfold ImageBuffer.tryFrom at h
  simp only at h
  split at h
  · cases h
  split at h
  · cases h
  cases h
  refine ⟨?_, paddedWidth_div_eight _, rfl, henc, ?_⟩
  · simpa [packPixels_length img] using Nat.mul_comm img.height (paddedWidth img.width / 8)
  · rw [Nat.mod_add_div, Nat.mod_add_div]
    simpa [packPixels_length img] using Nat.mul_comm (paddedWidth img.width / 8) img.height

/-- Concrete 8×1 all-light raster used to witness the framing theorem. -/
def imgLight : GrayImage :=
  ⟨8, 1, fun _ _ => 255⟩

/-- Witness for C10 at a concrete raster. -/
theorem image_command_framing_witness :
    (⟨1, 1, [0]⟩ : ImageBuffer).pixels.length
      = (⟨1, 1, [0]⟩ : ImageBuffer).width * (⟨1, 1, [0]⟩ : ImageBuffer).height ∧
    Command.asBytes (.image imgLight)
      = .ok ([0x1d, 0x76, 0x30, 0x00, 1 % 256, 1 / 256, 1 % 256, 1 / 256] ++ [0]) := by
  have h := image_command_framing imgLight ⟨1, 1, [0]⟩ (by decide)
  exact ⟨h.1, h.2.2.2.1⟩

/-- C3 counterexample: an input that is both of invalid length and
non-numeric fails with the length error, not the invalid-characters error
the claim promises for "any non-digit character" — the length check runs
first. -/
theorem upca_nondigit_fails_with_length_error :
    isAsciiDigit 0x41 = false ∧
    Barcode.newUpca [0x41, 0x41, 0x41, 0x41, 0x41] = .error .invalidBarcodeLength ∧
    Barcode.newUpca [0x41, 0x41, 0x41, 0x41, 0x41] ≠ .error .invalidBarcodeCharacters := by
  refine ⟨rfl, rfl, ?_⟩
  decide

/-- C3 (amended): construction with exactly 11 digits succeeds (the check
digit is then computed downstream, per `upcaFullDigits`); with exactly 12
digits it succeeds with the given last digit standing as the check digit;
any other length fails with the invalid-length error; a non-digit
character at a valid length (11 or 12) fails with the invalid-characters
error (the length check takes precedence when both are violated); no
value is constructed in either failure case. -/
theorem upca_construction (data : List Nat) :
    (data.length ≠ 11 ∧ data.length ≠ 12 →
      Barcode.newUpca data = .error .invalidBarcodeLength) ∧
    ((data.length = 11 ∨ data.length = 12) → data.all isAsciiDigit = false →
      Barcode.newUpca data = .error .invalidBarcodeCharacters) ∧
    (data.length = 11 → data.all isAsciiDigit = true →
      Barcode.newUpca data = .ok (.upca data) ∧
      upcaFullDigits data = data ++ [0x30 + upcaCheckDigit data] ∧
      (upcaFullDigits data).length = 12) ∧
    (data.length = 12 → data.all isAsciiDigit = true →
      Barcode.newUpca data = .ok (.upca data) ∧
      upcaFullDigits data = data ∧
      (upcaFullDigits data).getLast? = data.getLast?) := by
  refine ⟨?_, ?_, ?_, ?_⟩
  · intro h
    unfold Barcode.newUpca
    rw [if_pos h]
  · intro hlen hall
    unfold Barcode.newUpca
    rw [if_neg (by tauto), if_pos (by simp [hall])]
  · intro h11 hall
    unfold Barcode.newUpca upcaFullDigits
    rw [if_neg (by omega), if_neg (by simp [hall]), if_pos h11]
    exact ⟨rfl, rfl, by simp [h11]⟩
  · intro h12 hall
    unfold Barcode.newUpca upcaFullDigits
    rw [if_neg (by omega), if_neg (by simp [hall]), if_neg (by omega)]
    exact ⟨rfl, rfl, rfl⟩

/-- Concrete 11-digit payload used to witness barcode construction. -/
def upcaDigits11 : List Nat :=
  [0x31, 0x32, 0x33, 0x34, 0x35, 0x36, 0x37, 0x38, 0x39, 0x30, 0x31]

/-- Witness for C3 (amended) at a concrete 11-digit input. -/
theorem upca_construction_witness :
    Barcode.newUpca upcaDigits11 = .ok (.upca upcaDigits11) ∧
    upcaFullDigits upcaDigits11 = upcaDigits11 ++ [0x30 + upcaCheckDigit upcaDigits11] := by
  have h := (upca_construction upcaDigits11).2.2.1 (by decide) (by decide)
  exact ⟨h.1, h.2.1⟩

/-- C6: a character-set change is gated on the model's capability: when
the set is unsupported both writers fail with `Unsupported` having written
nothing (the caller's state is unchanged); when supported, the
character-set command is encoded and its bytes appended to the transport. -/
theorem character_set_gating (w : Writer) (c : CharacterSet) :
    (w.model.supportsCharacterSet c = false →
      StdWrite.characterSet w c = .error (.epson .unsupported) ∧
      AsyncTokio.characterSet w c = .error (.epson .unsupported) ∧
      StdWrite.exec w (.characterSet c) = w) ∧
    (w.model.supportsCharacterSet c = true →
      Command.asBytes (.characterSet c) = .ok (characterSetBytes c) ∧
      StdWrite.characterSet w c = .ok ⟨w.model, w.sent ++ characterSetBytes c⟩ ∧
      AsyncTokio.characterSet w c = .ok ⟨w.model, w.sent ++ characterSetBytes c⟩) := by
  constructor
  · intro hs
    refine ⟨?_, ?_, ?_⟩ <;>
      simp [StdWrite.characterSet, AsyncTokio.characterSet, StdWrite.exec,
        StdWrite.step, hs]
  · intro hs
    refine ⟨rfl, ?_, ?_⟩ <;>
      simp [StdWrite.characterSet, AsyncTokio.characterSet,
        StdWrite.writeCommand, AsyncTokio.writeCommand, Command.asBytes, hs]

/-- Witness for C6: T20II rejects Unicode without writing; T30II accepts
it and transmits the encoded command. -/
theorem character_set_gating_witness :
    StdWrite.characterSet ⟨Model.t20ii, []⟩ .unicode = .error (.epson .unsupported) ∧
    StdWrite.characterSet ⟨Model.t30ii, []⟩ .unicode
      = .ok ⟨Model.t30ii, [] ++ characterSetBytes .unicode⟩ :=
  ⟨((character_set_gating ⟨Model.t20ii, []⟩ .unicode).1 rfl).1,
    ((character_set_gating ⟨Model.t30ii, []⟩ .unicode).2 rfl).2.1⟩

/-- C7: checked image printing refuses a raster wider than the model's
maximum with `ImageTooLarge` before any transport write (the caller's
state is unchanged); within the limit it coincides with the unchecked
path, and the unchecked path always dispatches the image command to the
encoder and transport with no model check. -/
theorem checked_image_gating (w : Writer) (img : GrayImage) :
    (img.width > w.model.getMaxImageWidth →
      StdWrite.printImage w img = .error (.epson .imageTooLarge) ∧
      AsyncTokio.printImage w img = .error (.epson .imageTooLarge) ∧
      StdWrite.exec w (.printImage img) = w) ∧
    (img.width ≤ w.model.getMaxImageWidth →
      StdWrite.printImage w img = StdWrite.printImageUnchecked w img ∧
      AsyncTokio.printImage w img = AsyncTokio.printImageUnchecked w img) ∧
    (StdWrite.printImageUnchecked w img = StdWrite.writeCommand w (.image img)) ∧
    (AsyncTokio.printImageUnchecked w img = AsyncTokio.writeCommand w (.image img)) := by
  refine ⟨?_, ?_, rfl, rfl⟩
  · intro hgt
    refine ⟨?_, ?_, ?_⟩ <;>
      simp [StdWrite.printImage, AsyncTokio.printImage, StdWrite.exec,
        StdWrite.step, StdWrite.printImageUnchecked, Model.checkImage, hgt]
  · intro hle
    constructor <;>
      simp [StdWrite.printImage, AsyncTokio.printImage,
        StdWrite.printImageUnchecked, AsyncTokio.printImageUnchecked,
        Model.checkImage, Nat.not_lt.mpr hle]

/-- Concrete raster wider than the Generic model's 512-pixel maximum. -/
def imgWide : GrayImage :=
  ⟨600, 1, fun _ _ => 0⟩

/-- Witness for C7: a 600-pixel-wide raster is refused by the Generic
model with no write. -/
theorem checked_image_gating_witness :
    StdWrite.printImage ⟨Model.generic, []⟩ imgWide = .error (.epson .imageTooLarge) ∧
    StdWrite.exec ⟨Model.generic, []⟩ (.printImage imgWide) = ⟨Model.generic, []⟩ := by
  have h := (checked_image_gating ⟨Model.generic, []⟩ imgWide).1 (by decide)
  exact ⟨h.1, h.2.2⟩

/-- C8: opening a writer (std or tokio) transmits exactly the `Init`
bytes `[0x1B, 0x40]` — once, before `open` returns — and every trace of
caller-issued operations on the opened writer extends that prefix: no
command's bytes ever precede the initialization bytes on the transport. -/
theorem open_sends_init_first (m : Model) (ops : List Op) :
    StdWrite.openWriter m = .ok ⟨m, [0x1b, 0x40]⟩ ∧
    AsyncTokio.openWriter m = .ok ⟨m, [0x1b, 0x40]⟩ ∧
    (∃ rest, (StdWrite.run ⟨m, [0x1b, 0x40]⟩ ops).sent = [0x1b, 0x40] ++ rest) ∧
    (∃ rest, (AsyncTokio.run ⟨m, [0x1b, 0x40]⟩ ops).sent = [0x1b, 0x40] ++ rest) := by
  refine ⟨rfl, rfl, StdWrite.run_sent ops ⟨m, [0x1b, 0x40]⟩, ?_⟩
  rw [← run_std_eq_tok]
  exact StdWrite.run_sent ops ⟨m, [0x1b, 0x40]⟩

/-- C9: the blocking (std) and cooperatively-suspending (tokio) writers
are byte-identical: both dispatch every command through the same
`Command::as_bytes`, a single raw command succeeds or fails identically
with the same resulting writer, opening agrees, and every sequence of
caller-issued operations leaves byte-identical transports. -/
theorem std_tokio_equivalence (m : Model) (ops : List Op) (w : Writer)
    (cmd : Command) (op : Op) :
    (StdWrite.writeCommand w cmd).toOption = (AsyncTokio.writeCommand w cmd).toOption ∧
    (StdWrite.openWriter m).toOption = (AsyncTokio.openWriter m).toOption ∧
    StdWrite.exec w op = AsyncTokio.exec w op ∧
    (StdWrite.run ⟨m, [0x1b, 0x40]⟩ ops).sent
      = (AsyncTokio.run ⟨m, [0x1b, 0x40]⟩ ops).sent := by
  refine ⟨?_, rfl, exec_std_eq_tok w op, by rw [run_std_eq_tok]⟩
  simp only [StdWrite.writeCommand, AsyncTokio.writeCommand]
  cases cmd.asBytes <;> rfl

end Epson
